import Mathlib

/-! Verification development for the marble-seoul dashboard core:
session/view-state management (`core/cache_manager.py`), ranking and
quintile computation (`data/rankings.py`), similar-price comparison
(`data/comparison_engine.py`) and map cache key construction
(`core/map_manager.py`).  Python floats are modelled as exact rationals,
district-name strings as lists of character codes where character-level
structure matters, and a raised exception as an `Option` result. -/

namespace MarbleSeoul

/-! ## Session state store (`core/cache_manager.py`) -/

/-- `VALID_VIEW_STAGES` from `cache_manager.py`. -/
def VALID_VIEW_STAGES : List String :=
  ["overview", "gu_ranking", "district_selected", "comparison"]

/-- The Streamlit session state fields managed by `cache_manager.py`
(`init_session_state`).  `map_html` and `ranking_df` are opaque payloads
that none of the state-transition claims touch, so they are not modelled. -/
structure SessionState where
  view_stage : String
  selected_district : Option String
  selected_quintile : Option Int
  comparison_mode : Option String
  comparison_districts : List String
  messages : List (String × String)
  deriving DecidableEq

/-- `validate_view_stage`. -/
def validate_view_stage (stage : String) : Bool :=
  VALID_VIEW_STAGES.contains stage

/-- `validate_comparison_mode`: `mode in [None, "adjacent", "similar_price"]`. -/
def validate_comparison_mode (mode : Option String) : Bool :=
  mode == none || mode == some "adjacent" || mode == some "similar_price"

/-- Python truthiness test `not st.session_state.selected_district`:
the district is absent when it is `None` or the empty string. -/
def district_absent : Option String → Bool
  | none => true
  | some d => d == ""

/-- `clear_comparison_mode`: resets the mode to `None` and the comparison
district list to `[]`. -/
def clear_comparison_mode (s : SessionState) : SessionState :=
  { s with comparison_mode := none, comparison_districts := [] }

/-- `update_view_stage`: validates the stage, stores it, then applies the
per-stage cleanup side effects; the `comparison` branch redirects to
`district_selected` when no district is selected.  Returns the Python
boolean result together with the updated state. -/
def update_view_stage (stage : String) (s : SessionState) : Bool × SessionState :=
  if !(validate_view_stage stage) then (false, s)
  else
    let s1 := { s with view_stage := stage }
    if stage == "overview" then
      (true, clear_comparison_mode
        { s1 with selected_district := none, selected_quintile := none })
    else if stage == "gu_ranking" then
      (true, clear_comparison_mode { s1 with selected_district := none })
    else if stage == "district_selected" then
      (true, clear_comparison_mode s1)
    else if stage == "comparison" then
      if district_absent s1.selected_district then
        (true, { s1 with view_stage := "district_selected" })
      else (true, s1)
    else (true, s1)

/-- The guard of `select_quintile`: a non-`None` quintile outside `1..5`
is invalid.  (The Python `isinstance(quintile, int)` check is subsumed by
typing the argument as `Option Int`.) -/
def quintile_invalid : Option Int → Bool
  | none => false
  | some v => v < 1 || v > 5

/-- `select_quintile`: rejects invalid values, toggles off when the value
is already selected, otherwise stores it. -/
def select_quintile (q : Option Int) (s : SessionState) : Bool × SessionState :=
  if quintile_invalid q then (false, s)
  else if s.selected_quintile == q then
    (true, { s with selected_quintile := none })
  else
    (true, { s with selected_quintile := q })

/-- `set_comparison_mode`: rejects invalid modes; on a mode change the
comparison district list is cleared. -/
def set_comparison_mode (mode : Option String) (s : SessionState) :
    Bool × SessionState :=
  if !(validate_comparison_mode mode) then (false, s)
  else if s.comparison_mode ≠ mode then
    (true, { s with comparison_mode := mode, comparison_districts := [] })
  else
    (true, { s with comparison_mode := mode })

/-- `validate_session_state`.  The required keys always exist on the
record model, so only the three value checks remain. -/
def validate_session_state (s : SessionState) : Bool :=
  validate_view_stage s.view_stage &&
  validate_comparison_mode s.comparison_mode &&
  !(s.view_stage == "comparison" && district_absent s.selected_district)

/-- First block of `repair_session_state`: reset an invalid view stage to
`overview`. -/
def repair_view (s : SessionState) : SessionState :=
  if !(validate_view_stage s.view_stage) then { s with view_stage := "overview" }
  else s

/-- Second block of `repair_session_state`: reset an invalid comparison
mode to `None`, clearing the comparison district list. -/
def repair_mode (s : SessionState) : SessionState :=
  if !(validate_comparison_mode s.comparison_mode) then
    { s with comparison_mode := none, comparison_districts := [] }
  else s

/-- Third block of `repair_session_state`: downgrade a `comparison` stage
without a selected district to `district_selected`. -/
def repair_downgrade (s : SessionState) : SessionState :=
  if s.view_stage == "comparison" && district_absent s.selected_district then
    { s with view_stage := "district_selected" }
  else s

/-- `repair_session_state`: the three repair blocks applied in source
order. -/
def repair_session_state (s : SessionState) : SessionState :=
  repair_downgrade (repair_mode (repair_view s))

/-- An arbitrary concrete session state used by witnesses. -/
def exState : SessionState :=
  { view_stage := "overview", selected_district := none,
    selected_quintile := none, comparison_mode := none,
    comparison_districts := [], messages := [] }

/-- A session state with a selected district, used by witnesses. -/
def exStateGangnam : SessionState :=
  { exState with view_stage := "district_selected",
                 selected_district := some "Gangnam-gu" }

/-- C1: `update_view_stage "comparison"` always returns `True`; when no
district is selected (`None` or empty) the resulting stage is
`district_selected`, and when a district is selected it is `comparison`. -/
theorem comparison_requires_district (s : SessionState) :
    (update_view_stage "comparison" s).1 = true ∧
    (district_absent s.selected_district = true →
      (update_view_stage "comparison" s).2.view_stage = "district_selected") ∧
    (district_absent s.selected_district = false →
      (update_view_stage "comparison" s).2.view_stage = "comparison") := by
  unfold update_view_stage
  have hv : validate_view_stage "comparison" = true := by decide
  rw [hv]
  simp only [Bool.not_true, Bool.false_eq_true, if_false]
  refine ⟨?_, ?_, ?_⟩
  · cases h : district_absent s.selected_district <;> simp [h]
  · intro h; simp [h]
  · intro h; simp [h]

/-- Witness for C1 at two concrete states: with no district selected the
stage becomes `district_selected`; with a district it becomes
`comparison`. -/
theorem comparison_requires_district_witness :
    (update_view_stage "comparison" exState).2.view_stage = "district_selected" ∧
    (update_view_stage "comparison" exStateGangnam).2.view_stage = "comparison" :=
  ⟨(comparison_requires_district exState).2.1 (by decide),
   (comparison_requires_district exStateGangnam).2.2 (by decide)⟩

/-- C6: each invalid argument is rejected with `False` and the whole
session state is left unchanged: an invalid view-stage name for
`update_view_stage`, a non-null quintile outside `1..5` for
`select_quintile`, and an invalid mode for `set_comparison_mode`. -/
theorem invalid_selection_noop (s : SessionState) (stage : String)
    (q : Option Int) (mode : Option String) :
    (validate_view_stage stage = false → update_view_stage stage s = (false, s)) ∧
    (quintile_invalid q = true → select_quintile q s = (false, s)) ∧
    (validate_comparison_mode mode = false → set_comparison_mode mode s = (false, s)) := by
  refine ⟨?_, ?_, ?_⟩
  · intro h; unfold update_view_stage; rw [h]; rfl
  · intro h; unfold select_quintile; rw [h]; rfl
  · intro h; unfold set_comparison_mode; rw [h]; rfl

/-- Witness for C6: the three rejections evaluated on concrete invalid
arguments. -/
theorem invalid_selection_noop_witness :
    update_view_stage "bogus" exState = (false, exState) ∧
    select_quintile (some 7) exState = (false, exState) ∧
    set_comparison_mode (some "bogus") exState = (false, exState) :=
  ⟨(invalid_selection_noop exState "bogus" (some 7) (some "bogus")).1 (by decide),
   (invalid_selection_noop exState "bogus" (some 7) (some "bogus")).2.1 (by decide),
   (invalid_selection_noop exState "bogus" (some 7) (some "bogus")).2.2 (by decide)⟩

/-- A state in which quintile 3 is already selected; on it, selecting 3
twice does not end at `None`. -/
def exStateQ3 : SessionState := { exState with selected_quintile := some 3 }

/-- C7 counterexample: from a state whose selected quintile is already 3,
calling `select_quintile 3` twice yields `some 3`, not `None` — the first
call toggles the selection off and the second switches it back on, so the
claimed double-selection law fails on states that already carry `v`. -/
theorem select_quintile_twice_counterexample :
    (select_quintile (some 3) (select_quintile (some 3) exStateQ3).2).2.selected_quintile
      = some 3 ∧
    ¬ (select_quintile (some 3) (select_quintile (some 3) exStateQ3).2).2.selected_quintile
      = none := by
  refine ⟨rfl, ?_⟩
  intro h
  rw [show (select_quintile (some 3) (select_quintile (some 3) exStateQ3).2).2.selected_quintile
      = some 3 from rfl] at h
  exact Option.noConfusion h

/-- State effect of a validated `select_quintile` call: toggle off when
the value is already selected, store it otherwise. -/
theorem select_quintile_state (q : Option Int) (s : SessionState)
    (h : quintile_invalid q = false) :
    (select_quintile q s).2 =
      if s.selected_quintile = q then { s with selected_quintile := none }
      else { s with selected_quintile := q } := by
  unfold select_quintile
  rw [h]
  by_cases hq : s.selected_quintile = q
  · simp [hq]
  · simp [beq_iff_eq, hq]

/-- C7 amended: for a valid `v ∈ 1..5`, selecting `v` twice in a row
clears the quintile provided `v` was not already the selected quintile at
the start; selecting `v` then `w ≠ v` (both valid) always ends with `w`
selected, from every starting state. -/
theorem select_quintile_toggle (s : SessionState) (v w : Int)
    (hv1 : 1 ≤ v) (hv5 : v ≤ 5) (hw1 : 1 ≤ w) (hw5 : w ≤ 5) :
    (s.selected_quintile ≠ some v →
      (select_quintile (some v) (select_quintile (some v) s).2).2.selected_quintile
        = none) ∧
    (v ≠ w →
      (select_quintile (some w) (select_quintile (some v) s).2).2.selected_quintile
        = some w) := by
  have hvok : quintile_invalid (some v) = false := by
    simp [quintile_invalid]; omega
  have hwok : quintile_invalid (some w) = false := by
    simp [quintile_invalid]; omega
  constructor
  · intro hne
    rw [select_quintile_state (some v) s hvok, if_neg hne,
        select_quintile_state (some v) _ hvok, if_pos rfl]
  · intro hvw
    rw [select_quintile_state (some v) s hvok]
    by_cases hq : s.selected_quintile = some v
    · rw [if_pos hq, select_quintile_state (some w) _ hwok,
          if_neg (by intro h; exact Option.noConfusion h)]
    · rw [if_neg hq, select_quintile_state (some w) _ hwok,
          if_neg (by intro h; exact hvw (Option.some.inj h))]

/-- Witness for C7 amended: from the base state (no quintile selected),
3 twice toggles back to `None`, and 3 then 4 ends at 4. -/
theorem select_quintile_toggle_witness :
    (select_quintile (some 3) (select_quintile (some 3) exState).2).2.selected_quintile
      = none ∧
    (select_quintile (some 4) (select_quintile (some 3) exState).2).2.selected_quintile
      = some 4 :=
  ⟨(select_quintile_toggle exState 3 4 (by decide) (by decide) (by decide)
      (by decide)).1 (by decide),
   (select_quintile_toggle exState 3 4 (by decide) (by decide) (by decide)
      (by decide)).2 (by decide)⟩

/-- C10: the repaired session state always validates: repair forces a
valid view stage, forces a valid comparison mode (clearing the comparison
districts when it was invalid), and downgrades a `comparison` stage
without a selected district to `district_selected`. -/
theorem repair_validates (s : SessionState) :
    validate_session_state (repair_session_state s) = true := by
  have h1 : validate_view_stage (repair_view s).view_stage = true := by
    unfold repair_view
    cases h : validate_view_stage s.view_stage with
    | false => simp only [h, Bool.not_false, if_true]; decide
    | true => simp only [h, Bool.not_true, if_false]; exact h
  have hkeep : (repair_mode (repair_view s)).view_stage = (repair_view s).view_stage := by
    unfold repair_mode
    split <;> rfl
  have hdkeep : (repair_mode (repair_view s)).selected_district
      = (repair_view s).selected_district := by
    unfold repair_mode
    split <;> rfl
  have h2 : validate_comparison_mode (repair_mode (repair_view s)).comparison_mode
      = true := by
    unfold repair_mode
    cases h : validate_comparison_mode (repair_view s).comparison_mode with
    | false => simp only [h, Bool.not_false, if_true]; decide
    | true => simp only [h, Bool.not_true, if_false]; exact h
  have h1m : validate_view_stage (repair_mode (repair_view s)).view_stage = true := by
    rw [hkeep]; exact h1
  unfold repair_session_state repair_downgrade
  cases hc : ((repair_mode (repair_view s)).view_stage == "comparison" &&
      district_absent (repair_mode (repair_view s)).selected_district) with
  | true =>
    simp only [hc, if_true]
    unfold validate_session_state
    simp [h2, validate_view_stage, VALID_VIEW_STAGES]
  | false =>
    simp only [hc, Bool.false_eq_true, if_false]
    unfold validate_session_state
    simp [h1m, h2, hc]

/-! ## Rankings (`data/rankings.py`) -/

/-- A district name, modelled as its list of character codes (code 95 is
the underscore, which matters for the map cache keys below). -/
abbrev Name := List Nat

/-- One row of the apartment-trade table: district, dealing year-month,
and the 84m² price (a Python float, modelled as an exact rational). -/
structure TradeRecord where
  gugun : Name
  deal_ym : Int
  price_84m2_manwon : ℚ
  deriving DecidableEq

/-- `df[df["deal_ym"] == deal_month]`. -/
def monthlyData (df : List TradeRecord) (deal_month : Int) : List TradeRecord :=
  df.filter (fun r => r.deal_ym == deal_month)

/-- The prices recorded for district `g` in `df`. -/
def groupPrices (df : List TradeRecord) (g : Name) : List ℚ :=
  (df.filter (fun r => r.gugun == g)).map (·.price_84m2_manwon)

/-- The mean price of district `g` (`groupby("gugun")[...].mean()`). -/
def groupMean (df : List TradeRecord) (g : Name) : ℚ :=
  (groupPrices df g).sum / (groupPrices df g).length

/-- The distinct district names of `df` in ascending lexicographic order:
pandas `groupby` sorts its keys. -/
def groupKeys (df : List TradeRecord) : List Name :=
  List.insertionSort (· ≤ ·) (df.map (·.gugun)).dedup

/-- `groupby("gugun")["price_84m2_manwon"].mean()`: one `(district, mean
price)` row per district, keys ascending. -/
def groupbyMean (df : List TradeRecord) : List (Name × ℚ) :=
  (groupKeys df).map (fun g => (g, groupMean df g))

/-- The row comparison used by `sort_values`: by price. -/
def priceLe (a b : Name × ℚ) : Prop := a.2 ≤ b.2

instance : DecidableRel priceLe :=
  fun a b => inferInstanceAs (Decidable (a.2 ≤ b.2))

instance : IsTotal (Name × ℚ) priceLe := ⟨fun a b => le_total a.2 b.2⟩

instance : IsTrans (Name × ℚ) priceLe := ⟨fun _ _ _ h1 h2 => le_trans h1 h2⟩

/-- `sort_values(ascending=False)`: pandas computes an ascending argsort
with numpy's default sort and reverses it.  numpy's sort is an insertion
sort below its 16-element threshold — there the tie order is
deterministic (stable ascending, then reversed) — and an unstable
quicksort above it, so the program guarantees no particular order among
equal prices.  The executable model uses a stable insertion sort plus
reversal, which is one of the orders the program can produce; no theorem
below relies on the model's tie order, only on the descending price
order. -/
def sortValuesDesc (l : List (Name × ℚ)) : List (Name × ℚ) :=
  (List.insertionSort priceLe l).reverse

/-- `ranking.index = ranking.index + 1`: pair each row with its 1-based
rank. -/
def addRanks : Nat → List (Name × ℚ) → List (Nat × Name × ℚ)
  | _, [] => []
  | i, a :: t => (i, a.1, a.2) :: addRanks (i + 1) t

/-- `calculate_gugun_ranking`, restricted to its ordering-relevant
columns: the national/Seoul percentile columns join external threshold
data and alter neither row membership, order, prices, nor the `head(25)`
truncation.  Filters to the month, groups by district, averages the
price, sorts descending, assigns ranks from 1, and keeps the top 25
rows. -/
def calculate_gugun_ranking (df : List TradeRecord) (deal_month : Int) :
    List (Nat × Name × ℚ) :=
  (addRanks 1 (sortValuesDesc (groupbyMean (monthlyData df deal_month)))).take 25

theorem addRanks_take (n : Nat) : ∀ (k : Nat) (l : List (Name × ℚ)),
    (addRanks k l).take n = addRanks k (l.take n) := by
  induction n with
  | zero => intro k l; simp [List.take, addRanks]
  | succ n ih =>
    intro k l
    cases l with
    | nil => rfl
    | cons a t => simp [addRanks, List.take_succ_cons, ih]

theorem addRanks_map_fst : ∀ (k : Nat) (l : List (Name × ℚ)),
    (addRanks k l).map (·.1) = List.range' k l.length := by
  intro k l
  induction l generalizing k with
  | nil => rfl
  | cons a t ih => simp [addRanks, List.range', ih]

theorem addRanks_map_snd : ∀ (k : Nat) (l : List (Name × ℚ)),
    (addRanks k l).map (·.2) = l := by
  intro k l
  induction l generalizing k with
  | nil => rfl
  | cons a t ih => simp [addRanks, ih]

theorem addRanks_length (k : Nat) (l : List (Name × ℚ)) :
    (addRanks k l).length = l.length := by
  have := addRanks_map_snd k l
  calc (addRanks k l).length = ((addRanks k l).map (·.2)).length :=
        (List.length_map _ _).symm
    _ = l.length := by rw [this]

/-- C3 amended: `calculate_gugun_ranking` filters the records to the
period, keeps one row per district carrying the mean price of that
district's filtered records, orders rows by descending mean price —
rows of equal price appear in an order the program does not specify
(pandas' unstable default sort over alphabetically grouped rows), and in
particular not in original record order — assigns ranks `1..K` in order,
and keeps at most the top 25 rows (all of them when at most 25 districts
occur). -/
theorem gugun_ranking_correct (df : List TradeRecord) (m : Int) :
    (calculate_gugun_ranking df m).length
        = min (((monthlyData df m).map (·.gugun)).dedup.length) 25 ∧
    (calculate_gugun_ranking df m).map (·.1)
        = List.range' 1 (calculate_gugun_ranking df m).length ∧
    ((calculate_gugun_ranking df m).map (·.2)).Pairwise
        (fun a b => b.2 ≤ a.2) ∧
    (∀ r ∈ calculate_gugun_ranking df m,
        r.2.1 ∈ (monthlyData df m).map (·.gugun) ∧
        r.2.2 = groupMean (monthlyData df m) r.2.1) ∧
    (((monthlyData df m).map (·.gugun)).dedup.length ≤ 25 →
        ∀ g ∈ (monthlyData df m).map (·.gugun),
          ∃ r ∈ calculate_gugun_ranking df m, r.2.1 = g) := by
  have hlenL : (sortValuesDesc (groupbyMean (monthlyData df m))).length
      = ((monthlyData df m).map (·.gugun)).dedup.length := by
    unfold sortValuesDesc groupbyMean groupKeys
    rw [List.length_reverse, (List.perm_insertionSort priceLe _).length_eq,
        List.length_map, (List.perm_insertionSort _ _).length_eq]
  have hcalc : calculate_gugun_ranking df m
      = addRanks 1 ((sortValuesDesc (groupbyMean (monthlyData df m))).take 25) := by
    unfold calculate_gugun_ranking
    rw [addRanks_take]
  have hmemL : ∀ p : Name × ℚ,
      p ∈ sortValuesDesc (groupbyMean (monthlyData df m)) →
        p ∈ groupbyMean (monthlyData df m) := by
    intro p hp
    unfold sortValuesDesc at hp
    exact (List.perm_insertionSort priceLe _).subset (List.mem_reverse.mp hp)
  have hgval : ∀ p : Name × ℚ, p ∈ groupbyMean (monthlyData df m) →
      p.1 ∈ (monthlyData df m).map (·.gugun) ∧
      p.2 = groupMean (monthlyData df m) p.1 := by
    intro p hp
    unfold groupbyMean at hp
    rcases List.mem_map.mp hp with ⟨g, hg, rfl⟩
    refine ⟨?_, rfl⟩
    unfold groupKeys at hg
    exact (List.mem_dedup.mp ((List.perm_insertionSort _ _).subset hg))
  refine ⟨?_, ?_, ?_, ?_, ?_⟩
  · rw [hcalc, addRanks_length, List.length_take, hlenL, Nat.min_comm]
  · rw [hcalc, addRanks_map_fst, addRanks_length]
  · rw [hcalc, addRanks_map_snd]
    have hrev : (sortValuesDesc (groupbyMean (monthlyData df m))).Pairwise
        (fun a b : Name × ℚ => b.2 ≤ a.2) := by
      unfold sortValuesDesc
      exact List.pairwise_reverse.mpr
        (List.sorted_insertionSort priceLe (groupbyMean (monthlyData df m)))
    exact hrev.sublist (List.take_sublist _ _)
  · intro r hr
    rw [hcalc] at hr
    have h2 : r.2 ∈ (sortValuesDesc (groupbyMean (monthlyData df m))).take 25 := by
      have := List.mem_map_of_mem (·.2) hr
      rwa [addRanks_map_snd] at this
    exact hgval _ (hmemL _ (List.take_subset _ _ h2))
  · intro h25 g hg
    have htake : (sortValuesDesc (groupbyMean (monthlyData df m))).take 25
        = sortValuesDesc (groupbyMean (monthlyData df m)) :=
      List.take_of_length_le (by rw [hlenL]; exact h25)
    have hgk : g ∈ groupKeys (monthlyData df m) := by
      unfold groupKeys
      exact (List.perm_insertionSort _ _).mem_iff.mpr (List.mem_dedup.mpr hg)
    have hgm : (g, groupMean (monthlyData df m) g) ∈ groupbyMean (monthlyData df m) := by
      unfold groupbyMean
      exact List.mem_map_of_mem _ hgk
    have hL : (g, groupMean (monthlyData df m) g)
        ∈ sortValuesDesc (groupbyMean (monthlyData df m)) := by
      unfold sortValuesDesc
      rw [List.mem_reverse]
      exact (List.perm_insertionSort priceLe _).mem_iff.mpr hgm
    have hmapped : (g, groupMean (monthlyData df m) g)
        ∈ (calculate_gugun_ranking df m).map (·.2) := by
      rw [hcalc, addRanks_map_snd, htake]
      exact hL
    rcases List.mem_map.mp hmapped with ⟨r, hr, hr2⟩
    exact ⟨r, hr, by rw [hr2]⟩

/-- District name "a" (character code 97). -/
def exName_a : Name := [97]

/-- District name "b" (character code 98). -/
def exName_b : Name := [98]

/-- Two records of the same month with equal prices, district "a" first
in the original row order. -/
def exDfTies : List TradeRecord :=
  [{ gugun := exName_a, deal_ym := 202412, price_84m2_manwon := 10 },
   { gugun := exName_b, deal_ym := 202412, price_84m2_manwon := 10 }]

/-- C3 counterexample: on two equal-priced records with district "a"
before district "b" in the original row order, the ranking places "b"
first — the grouping step reorders districts alphabetically, and at this
size numpy's sort is its deterministic insertion sort, whose ascending
argsort pandas reverses — so ties do not preserve the original row order
as the claim states. -/
theorem gugun_ranking_tie_counterexample :
    calculate_gugun_ranking exDfTies 202412
        = [(1, exName_b, 10), (2, exName_a, 10)] ∧
    (calculate_gugun_ranking exDfTies 202412).map (fun r => r.2.1)
        ≠ [exName_a, exName_b] := by
  have h : calculate_gugun_ranking exDfTies 202412
      = [(1, exName_b, 10), (2, exName_a, 10)] := by
    norm_num [calculate_gugun_ranking, monthlyData, groupbyMean, groupKeys,
      groupMean, groupPrices, sortValuesDesc, addRanks, List.insertionSort,
      List.orderedInsert, priceLe, List.filter_cons, List.filter_nil,
      beq_iff_eq, List.dedup_cons_of_not_mem, List.dedup_nil,
      exDfTies, exName_a, exName_b]
  refine ⟨h, ?_⟩
  rw [h]
  decide

/-- Witness for the amended C3 theorem: on the concrete two-record table
the district count is within 25 and district "a" indeed appears in the
ranking. -/
theorem gugun_ranking_correct_witness :
    ((monthlyData exDfTies 202412).map (·.gugun)).dedup.length ≤ 25 ∧
    ∃ r ∈ calculate_gugun_ranking exDfTies 202412, r.2.1 = exName_a :=
  ⟨by decide, (gugun_ranking_correct exDfTies 202412).2.2.2.2 (by decide)
    exName_a (by decide)⟩

/-! ## Price quintiles (`data/rankings.py`, `calculate_price_quintiles`) -/

/-- One value of the `quintiles` dict: member district names, member
count, and the price minimum/maximum of the slice.  The presentational
fields (`label`, `description`, `color`, the formatted `price_range`
string) are constant strings or colour-table lookups and are not
modelled. -/
structure QuintileInfo where
  gus : List Name
  count : Nat
  price_min : ℚ
  price_max : ℚ
  deriving DecidableEq

/-- `numpy` `.min()` of a list of values; `none` models the `ValueError`
raised on an empty array. -/
def listMin : List ℚ → Option ℚ
  | [] => none
  | a :: t =>
    match listMin t with
    | none => some a
    | some m => some (min a m)

/-- `numpy` `.max()` of a list of values; `none` models the `ValueError`
raised on an empty array. -/
def listMax : List ℚ → Option ℚ
  | [] => none
  | a :: t =>
    match listMax t with
    | none => some a
    | some m => some (max a m)

/-- `price_series.iloc[i*5 : i*5+5]`: the `i`-th fixed-width slice of the
ranking rows. -/
def sliceAt (l : List (Name × ℚ)) (i : Nat) : List (Name × ℚ) :=
  (l.drop (i * 5)).take 5

/-- One iteration of the `for i in range(5)` loop of
`calculate_price_quintiles`: the slice's names, count, and price min/max;
`none` when the slice is empty (numpy raises on `.min()`/`.max()` of an
empty slice). -/
def quintile_one (ps : List (Name × ℚ)) (i : Nat) : Option QuintileInfo :=
  match listMin ((sliceAt ps i).map Prod.snd), listMax ((sliceAt ps i).map Prod.snd) with
  | some mn, some mx =>
    some { gus := (sliceAt ps i).map Prod.fst,
           count := (sliceAt ps i).length,
           price_min := mn, price_max := mx }
  | _, _ => none

/-- `calculate_price_quintiles`: the five loop iterations keyed `1..5`;
`none` models the exception escaping the loop when any slice is empty. -/
def calculate_price_quintiles (ranking_df : List (Name × ℚ)) :
    Option (List (Nat × QuintileInfo)) :=
  match quintile_one ranking_df 0, quintile_one ranking_df 1,
      quintile_one ranking_df 2, quintile_one ranking_df 3,
      quintile_one ranking_df 4 with
  | some q1, some q2, some q3, some q4, some q5 =>
    some [(1, q1), (2, q2), (3, q3), (4, q4), (5, q5)]
  | _, _, _, _, _ => none

/-- Specification-side reading of one bucket: it lists exactly the
members of a slice of the ranking, in order, and its recorded price
min/max are the least and greatest member prices. -/
def QuintileMatchesSlice (q : QuintileInfo) (s : List (Name × ℚ)) : Prop :=
  q.gus = s.map Prod.fst ∧ q.count = s.length ∧
  q.price_min ∈ s.map Prod.snd ∧ (∀ p ∈ s.map Prod.snd, q.price_min ≤ p) ∧
  q.price_max ∈ s.map Prod.snd ∧ (∀ p ∈ s.map Prod.snd, p ≤ q.price_max)

theorem listMin_ne_none : ∀ (a : ℚ) (t : List ℚ), ∃ m, listMin (a :: t) = some m := by
  intro a t
  cases h : listMin t with
  | none => exact ⟨a, by simp [listMin, h]⟩
  | some m => exact ⟨min a m, by simp [listMin, h]⟩

theorem listMax_ne_none : ∀ (a : ℚ) (t : List ℚ), ∃ m, listMax (a :: t) = some m := by
  intro a t
  cases h : listMax t with
  | none => exact ⟨a, by simp [listMax, h]⟩
  | some m => exact ⟨max a m, by simp [listMax, h]⟩

theorem listMin_eq_none : ∀ {l : List ℚ}, listMin l = none → l = [] := by
  intro l h
  cases l with
  | nil => rfl
  | cons a t =>
    rcases listMin_ne_none a t with ⟨m, hm⟩
    rw [hm] at h
    exact Option.noConfusion h

theorem listMax_eq_none : ∀ {l : List ℚ}, listMax l = none → l = [] := by
  intro l h
  cases l with
  | nil => rfl
  | cons a t =>
    rcases listMax_ne_none a t with ⟨m, hm⟩
    rw [hm] at h
    exact Option.noConfusion h

theorem listMin_spec : ∀ (l : List ℚ) (m : ℚ), listMin l = some m →
    m ∈ l ∧ ∀ x ∈ l, m ≤ x := by
  intro l
  induction l with
  | nil => intro m h; exact Option.noConfusion h
  | cons a t ih =>
    intro m h
    cases ht : listMin t with
    | none =>
      obtain rfl := listMin_eq_none ht
      have ha : listMin [a] = some a := rfl
      rw [ha] at h
      injection h with h
      subst h
      simp
    | some mt =>
      have hm : listMin (a :: t) = some (min a mt) := by
        simp [listMin, ht]
      rw [hm] at h
      injection h with h
      subst h
      rcases ih mt ht with ⟨hmem, hbd⟩
      refine ⟨?_, ?_⟩
      · rcases le_total a mt with hle | hle
        · rw [min_eq_left hle]; exact List.mem_cons_self a t
        · rw [min_eq_right hle]; exact List.mem_cons_of_mem a hmem
      · intro x hx
        rcases List.mem_cons.mp hx with rfl | hx
        · exact min_le_left _ _
        · exact le_trans (min_le_right _ _) (hbd x hx)

theorem listMax_spec : ∀ (l : List ℚ) (m : ℚ), listMax l = some m →
    m ∈ l ∧ ∀ x ∈ l, x ≤ m := by
  intro l
  induction l with
  | nil => intro m h; exact Option.noConfusion h
  | cons a t ih =>
    intro m h
    cases ht : listMax t with
    | none =>
      obtain rfl := listMax_eq_none ht
      have ha : listMax [a] = some a := rfl
      rw [ha] at h
      injection h with h
      subst h
      simp
    | some mt =>
      have hm : listMax (a :: t) = some (max a mt) := by
        simp [listMax, ht]
      rw [hm] at h
      injection h with h
      subst h
      rcases ih mt ht with ⟨hmem, hbd⟩
      refine ⟨?_, ?_⟩
      · rcases le_total a mt with hle | hle
        · rw [max_eq_right hle]; exact List.mem_cons_of_mem a hmem
        · rw [max_eq_left hle]; exact List.mem_cons_self a t
      · intro x hx
        rcases List.mem_cons.mp hx with rfl | hx
        · exact le_max_left _ _
        · exact le_trans (hbd x hx) (le_max_right _ _)

theorem quintile_one_some (ps : List (Name × ℚ)) (i : Nat)
    (h : sliceAt ps i ≠ []) :
    ∃ q, quintile_one ps i = some q ∧ QuintileMatchesSlice q (sliceAt ps i) := by
  obtain ⟨a, t, hat⟩ : ∃ a t, (sliceAt ps i).map Prod.snd = a :: t := by
    cases hc : (sliceAt ps i).map Prod.snd with
    | nil => exact absurd (List.map_eq_nil_iff.mp hc) h
    | cons a t => exact ⟨a, t, rfl⟩
  rcases listMin_ne_none a t with ⟨mn, hmn⟩
  rcases listMax_ne_none a t with ⟨mx, hmx⟩
  rw [← hat] at hmn hmx
  refine ⟨QuintileInfo.mk ((sliceAt ps i).map Prod.fst) (sliceAt ps i).length
    mn mx, ?_, ?_⟩
  · unfold quintile_one
    rw [hmn, hmx]
  · rcases listMin_spec _ _ hmn with ⟨hmn1, hmn2⟩
    rcases listMax_spec _ _ hmx with ⟨hmx1, hmx2⟩
    exact ⟨rfl, rfl, hmn1, hmn2, hmx1, hmx2⟩

theorem quintile_one_none (ps : List (Name × ℚ)) (i : Nat)
    (h : sliceAt ps i = []) : quintile_one ps i = none := by
  unfold quintile_one
  rw [h]
  rfl

theorem sliceAt_length (l : List (Name × ℚ)) (i : Nat) :
    (sliceAt l i).length = min 5 (l.length - i * 5) := by
  unfold sliceAt
  rw [List.length_take, List.length_drop]

theorem drop_slice_decomp (l : List (Name × ℚ)) (i : Nat) :
    l.drop (i * 5) = sliceAt l i ++ l.drop ((i + 1) * 5) := by
  unfold sliceAt
  have h5 : (i + 1) * 5 = i * 5 + 5 := by ring
  rw [h5, ← List.drop_drop, List.take_append_drop]

/-- Shared decomposition: for a ranking of `N` rows with `21 ≤ N ≤ 25`,
`calculate_price_quintiles` succeeds, the five buckets read off the five
consecutive row slices (sizes 5, 5, 5, 5, N − 20) that concatenate back
to the whole ranking, each bucket records its slice's member names and
price min/max, and — when the district names are distinct — the buckets'
member lists are pairwise disjoint. -/
theorem quintiles_decomp (rl : List (Name × ℚ))
    (h21 : 21 ≤ rl.length) (h25 : rl.length ≤ 25)
    (hnd : (rl.map Prod.fst).Nodup) :
    ∃ q1 q2 q3 q4 q5,
      calculate_price_quintiles rl
          = some [(1, q1), (2, q2), (3, q3), (4, q4), (5, q5)] ∧
      rl = sliceAt rl 0 ++ sliceAt rl 1 ++ sliceAt rl 2 ++ sliceAt rl 3
          ++ sliceAt rl 4 ∧
      (sliceAt rl 0).length = 5 ∧ (sliceAt rl 1).length = 5 ∧
      (sliceAt rl 2).length = 5 ∧ (sliceAt rl 3).length = 5 ∧
      (sliceAt rl 4).length = rl.length - 20 ∧
      QuintileMatchesSlice q1 (sliceAt rl 0) ∧
      QuintileMatchesSlice q2 (sliceAt rl 1) ∧
      QuintileMatchesSlice q3 (sliceAt rl 2) ∧
      QuintileMatchesSlice q4 (sliceAt rl 3) ∧
      QuintileMatchesSlice q5 (sliceAt rl 4) ∧
      ([q1.gus, q2.gus, q3.gus, q4.gus, q5.gus].flatten).Nodup := by
  have hlen : ∀ i, i ≤ 4 → (sliceAt rl i).length = min 5 (rl.length - i * 5) :=
    fun i _ => sliceAt_length rl i
  have hne : ∀ i, i ≤ 4 → sliceAt rl i ≠ [] := by
    intro i hi
    have := sliceAt_length rl i
    intro hnil
    rw [hnil] at this
    simp at this
    omega
  obtain ⟨q1, hq1, hm1⟩ := quintile_one_some rl 0 (hne 0 (by omega))
  obtain ⟨q2, hq2, hm2⟩ := quintile_one_some rl 1 (hne 1 (by omega))
  obtain ⟨q3, hq3, hm3⟩ := quintile_one_some rl 2 (hne 2 (by omega))
  obtain ⟨q4, hq4, hm4⟩ := quintile_one_some rl 3 (hne 3 (by omega))
  obtain ⟨q5, hq5, hm5⟩ := quintile_one_some rl 4 (hne 4 (by omega))
  have hd0 := drop_slice_decomp rl 0
  have hd1 := drop_slice_decomp rl 1
  have hd2 := drop_slice_decomp rl 2
  have hd3 := drop_slice_decomp rl 3
  have hd4 := drop_slice_decomp rl 4
  norm_num at hd0 hd1 hd2 hd3 hd4
  have hd5 : rl.drop 25 = [] := by
    rw [List.drop_eq_nil_iff]
    omega
  have hdec : rl = sliceAt rl 0 ++ sliceAt rl 1 ++ sliceAt rl 2
      ++ sliceAt rl 3 ++ sliceAt rl 4 := by
    conv_lhs => rw [hd0, hd1, hd2, hd3, hd4, hd5]
    simp [List.append_assoc]
  refine ⟨q1, q2, q3, q4, q5, ?_, hdec, ?_, ?_, ?_, ?_, ?_, hm1, hm2, hm3,
    hm4, hm5, ?_⟩
  · unfold calculate_price_quintiles
    rw [hq1, hq2, hq3, hq4, hq5]
  · rw [hlen 0 (by omega)]; omega
  · rw [hlen 1 (by omega)]; omega
  · rw [hlen 2 (by omega)]; omega
  · rw [hlen 3 (by omega)]; omega
  · rw [hlen 4 (by omega)]; omega
  · have hjoin : [q1.gus, q2.gus, q3.gus, q4.gus, q5.gus].flatten
        = rl.map Prod.fst := by
      rw [hm1.1, hm2.1, hm3.1, hm4.1, hm5.1]
      conv_rhs => rw [hdec]
      simp [List.map_append, List.append_assoc]
    rw [hjoin]
    exact hnd

/-- C2: on a 25-row ranking with distinct district names,
`calculate_price_quintiles` produces exactly 5 buckets of 5 consecutive
rank positions each; the slices concatenate back to the whole ranking (so
the buckets cover all 25 districts), the flattened member lists are
duplicate-free (so the buckets are pairwise disjoint), and each bucket's
recorded `price_min`/`price_max` are the least/greatest member prices. -/
theorem price_quintiles_partition_25 (rl : List (Name × ℚ))
    (hlen : rl.length = 25) (hnd : (rl.map Prod.fst).Nodup) :
    ∃ q1 q2 q3 q4 q5,
      calculate_price_quintiles rl
          = some [(1, q1), (2, q2), (3, q3), (4, q4), (5, q5)] ∧
      rl = sliceAt rl 0 ++ sliceAt rl 1 ++ sliceAt rl 2 ++ sliceAt rl 3
          ++ sliceAt rl 4 ∧
      (sliceAt rl 0).length = 5 ∧ (sliceAt rl 1).length = 5 ∧
      (sliceAt rl 2).length = 5 ∧ (sliceAt rl 3).length = 5 ∧
      (sliceAt rl 4).length = 5 ∧
      QuintileMatchesSlice q1 (sliceAt rl 0) ∧
      QuintileMatchesSlice q2 (sliceAt rl 1) ∧
      QuintileMatchesSlice q3 (sliceAt rl 2) ∧
      QuintileMatchesSlice q4 (sliceAt rl 3) ∧
      QuintileMatchesSlice q5 (sliceAt rl 4) ∧
      ([q1.gus, q2.gus, q3.gus, q4.gus, q5.gus].flatten).Nodup := by
  obtain ⟨q1, q2, q3, q4, q5, hs, hdec, hl0, hl1, hl2, hl3, hl4, hm1, hm2,
    hm3, hm4, hm5, hj⟩ := quintiles_decomp rl (by omega) (by omega) hnd
  refine ⟨q1, q2, q3, q4, q5, hs, hdec, hl0, hl1, hl2, hl3, ?_, hm1, hm2,
    hm3, hm4, hm5, hj⟩
  rw [hl4, hlen]

/-- A 25-row ranking with distinct single-code district names, used by
the C2 witness. -/
def ex25 : List (Name × ℚ) := (List.range 25).map (fun i => ([i + 1], (10 : ℚ)))

/-- Witness for C2 at the concrete 25-row ranking. -/
theorem price_quintiles_partition_25_witness :
    ex25.length = 25 ∧ (ex25.map Prod.fst).Nodup ∧
    (∃ q1 q2 q3 q4 q5, calculate_price_quintiles ex25
        = some [(1, q1), (2, q2), (3, q3), (4, q4), (5, q5)]) := by
  refine ⟨by decide, by decide, ?_⟩
  obtain ⟨q1, q2, q3, q4, q5, hs, _⟩ :=
    price_quintiles_partition_25 ex25 (by decide) (by decide)
  exact ⟨q1, q2, q3, q4, q5, hs⟩

/-- A 6-row ranking (N = 6, not divisible by 5). -/
def ex6 : List (Name × ℚ) :=
  [([1], 60), ([2], 50), ([3], 40), ([4], 30), ([5], 20), ([6], 10)]

/-- C8 counterexample: on a 6-row ranking (6 is not divisible by 5) the
computation produces no partition at all — the slice `iloc[10:15]` is
empty, numpy's `.min()` raises, and the model returns `none` — instead
of the claimed 5 groups of `⌈6/5⌉ = 2` with the remainder in the last
group.  (The first slice would moreover hold 5 members, not 2.) -/
theorem price_quintiles_ex6_counterexample :
    calculate_price_quintiles ex6 = none := by
  have hq4 : quintile_one ex6 4 = none := quintile_one_none ex6 4 (by decide)
  unfold calculate_price_quintiles
  rw [hq4]
  cases quintile_one ex6 0 <;> cases quintile_one ex6 1 <;>
    cases quintile_one ex6 2 <;> cases quintile_one ex6 3 <;> rfl

/-- C8 amended: the fixed-width slicing only realises the claimed
"`⌈N/5⌉` per group with the remainder in the last group" behaviour for
`21 ≤ N ≤ 24` (where `⌈N/5⌉ = 5`): there the five buckets are consecutive
rank slices of sizes 5, 5, 5, 5, N − 20 covering the ranking without
overlap, each recording its member list and price min/max.  For `N ≤ 20`
the computation instead fails (numpy raises on the `.min()` of an empty
slice) and produces no partition. -/
theorem price_quintiles_remainder :
    (∀ rl : List (Name × ℚ), 21 ≤ rl.length → rl.length ≤ 24 →
      (rl.map Prod.fst).Nodup →
      ∃ q1 q2 q3 q4 q5,
        calculate_price_quintiles rl
            = some [(1, q1), (2, q2), (3, q3), (4, q4), (5, q5)] ∧
        rl = sliceAt rl 0 ++ sliceAt rl 1 ++ sliceAt rl 2 ++ sliceAt rl 3
            ++ sliceAt rl 4 ∧
        (sliceAt rl 0).length = 5 ∧ (sliceAt rl 1).length = 5 ∧
        (sliceAt rl 2).length = 5 ∧ (sliceAt rl 3).length = 5 ∧
        (sliceAt rl 4).length = rl.length - 20 ∧
        QuintileMatchesSlice q1 (sliceAt rl 0) ∧
        QuintileMatchesSlice q2 (sliceAt rl 1) ∧
        QuintileMatchesSlice q3 (sliceAt rl 2) ∧
        QuintileMatchesSlice q4 (sliceAt rl 3) ∧
        QuintileMatchesSlice q5 (sliceAt rl 4) ∧
        ([q1.gus, q2.gus, q3.gus, q4.gus, q5.gus].flatten).Nodup) ∧
    (∀ rl : List (Name × ℚ), rl.length ≤ 20 →
      calculate_price_quintiles rl = none) := by
  constructor
  · intro rl h21 h24 hnd
    exact quintiles_decomp rl h21 (by omega) hnd
  · intro rl h20
    have h4 : sliceAt rl 4 = [] := by
      apply List.eq_nil_of_length_eq_zero
      rw [sliceAt_length]
      omega
    have hq4 := quintile_one_none rl 4 h4
    unfold calculate_price_quintiles
    rw [hq4]
    cases quintile_one rl 0 <;> cases quintile_one rl 1 <;>
      cases quintile_one rl 2 <;> cases quintile_one rl 3 <;> rfl

/-- A 22-row ranking with distinct district names, used by the C8
witness. -/
def ex22 : List (Name × ℚ) := (List.range 22).map (fun i => ([i + 1], (10 : ℚ)))

/-- Witness for C8 amended: at 22 rows the five buckets exist, and at 6
rows the computation yields no partition. -/
theorem price_quintiles_remainder_witness :
    21 ≤ ex22.length ∧ ex22.length ≤ 24 ∧ (ex22.map Prod.fst).Nodup ∧
    (∃ q1 q2 q3 q4 q5, calculate_price_quintiles ex22
        = some [(1, q1), (2, q2), (3, q3), (4, q4), (5, q5)]) ∧
    calculate_price_quintiles (ex22.take 6) = none := by
  refine ⟨by decide, by decide, by decide, ?_,
    price_quintiles_remainder.2 (ex22.take 6) (by decide)⟩
  obtain ⟨q1, q2, q3, q4, q5, hs, _⟩ :=
    price_quintiles_remainder.1 ex22 (by decide) (by decide) (by decide)
  exact ⟨q1, q2, q3, q4, q5, hs⟩

/-! ## Similar-price comparison (`data/comparison_engine.py`) -/

/-- One row of the apartment detail table `apt_price_df`: district,
build year, complex name, household count.  Only the district membership
feeds back into the modelled result fields (it decides whether the
`additional_info` list — and hence the merge — succeeds); the numeric
columns feed only the unmodelled `comparison_data` display frame. -/
structure AptRecord where
  gugun : Name
  build_year : ℚ
  apt_name : Name
  household_count : ℚ
  deriving DecidableEq

/-- `not apt_price_df[apt_price_df["gugun"] == district].empty`: the
apartment table has rows for the district. -/
def has_apt_data (apt_price_df : List AptRecord) (district : Name) : Bool :=
  !((apt_price_df.filter (fun a => a.gugun == district)).isEmpty)

/-- Whether the `additional_info` list built over
`[target_district] + similar_districts` is non-empty, i.e. some involved
district has apartment rows.  When it is empty, `pd.DataFrame([])` has no
`gugun` column and `comparison_data.merge(additional_df, on="gugun")` on
the found path raises `KeyError`, which the `except` handler converts
into the error result. -/
def additional_nonempty (apt_price_df : List AptRecord)
    (districts : List Name) : Bool :=
  districts.any (has_apt_data apt_price_df)

theorem additional_nonempty_nil (ds : List Name) :
    additional_nonempty [] ds = false := by
  induction ds with
  | nil => rfl
  | cons d t ih =>
    calc additional_nonempty [] (d :: t)
        = (has_apt_data [] d || additional_nonempty [] t) := rfl
      _ = false := by rw [show has_apt_data [] d = false from rfl, ih]; rfl

/-- The distinct human-readable `summary` strings that
`find_similar_price_districts` produces, modelled as a tagged value
carrying the data each Python f-string interpolates.  (The found-case
message also interpolates the target's pandas index and a formatted price
window, and the error-case message the exception text; those are
presentational and carry no additional selection information.) -/
inductive CompSummary
  | notFound (target : Name)
  | noSimilar (target : Name) (price : ℚ) (tolerance : ℚ)
  | found (target : Name) (price : ℚ) (cnt : Nat) (avg : ℚ) (tolerance : ℚ)
  | analysisError
  deriving DecidableEq

/-- The fields of the result dict of `find_similar_price_districts` that
the claims touch.  `comparison_data` (a merged display frame adding
build-year/household columns from the apartment detail table) does not
feed back into `target_price`, `similar_districts` or `summary` and is
not modelled.  `has_error_key` records whether the `"error"` key is
present in the dict. -/
structure CompResult where
  target_district : Name
  target_price : Option ℚ
  similar_districts : List Name
  summary : CompSummary
  has_error_key : Bool
  deriving DecidableEq

/-- `target_price * (1 - tolerance_pct / 100)`. -/
def price_window_lo (tp tol : ℚ) : ℚ := tp * (1 - tol / 100)

/-- `target_price * (1 + tolerance_pct / 100)`. -/
def price_window_hi (tp tol : ℚ) : ℚ := tp * (1 + tol / 100)

/-- The `similar_mask` filter: rows whose price lies in the inclusive
window, excluding the target itself. -/
def similar_rows (ranking_df : List (Name × ℚ)) (target : Name)
    (pmin pmax : ℚ) : List (Name × ℚ) :=
  ranking_df.filter (fun r =>
    decide (pmin ≤ r.2) && decide (r.2 ≤ pmax) && (r.1 != target))

/-- `similar_rows` at the ±tolerance window around the target price. -/
def windowRows (ranking_df : List (Name × ℚ)) (target : Name)
    (tp tol : ℚ) : List (Name × ℚ) :=
  similar_rows ranking_df target (price_window_lo tp tol) (price_window_hi tp tol)

/-- `price_diff_pct` / `similarity_score` columns:
`(name, price, 100 - |percent difference|)`. -/
def scoreRows (rows : List (Name × ℚ)) (tp : ℚ) : List (Name × ℚ × ℚ) :=
  rows.map (fun r => (r.1, r.2, 100 - |((r.2 - tp) / tp) * 100|))

/-- Row comparison for `sort_values("similarity_score")`. -/
def simLe (a b : Name × ℚ × ℚ) : Prop := a.2.2 ≤ b.2.2

instance : DecidableRel simLe :=
  fun a b => inferInstanceAs (Decidable (a.2.2 ≤ b.2.2))

instance : IsTotal (Name × ℚ × ℚ) simLe := ⟨fun a b => le_total a.2.2 b.2.2⟩

instance : IsTrans (Name × ℚ × ℚ) simLe := ⟨fun _ _ _ h1 h2 => le_trans h1 h2⟩

/-- `sort_values("similarity_score", ascending=False)`, modelled like
`sortValuesDesc` above. -/
def sortBySimilarityDesc (l : List (Name × ℚ × ℚ)) : List (Name × ℚ × ℚ) :=
  (List.insertionSort simLe l).reverse

/-- The scored window rows sorted by descending similarity and truncated
to `max_results`. -/
def top_rows (ranking_df : List (Name × ℚ)) (target : Name) (tp tol : ℚ)
    (max_results : Nat) : List (Name × ℚ × ℚ) :=
  (sortBySimilarityDesc (scoreRows (windowRows ranking_df target tp tol) tp)).take
    max_results

/-- `mean()` of a list of similarity scores. -/
def avgOf (l : List ℚ) : ℚ := l.sum / l.length

/-- `find_similar_price_districts`.  The two early returns produce empty
results with their messages; otherwise the window rows are scored, sorted
by descending similarity and truncated.  On the found path the code then
builds `additional_info` from `apt_price_df` over the target and the
selected districts: when no involved district has apartment rows, the
`merge(additional_df, on="gugun")` raises `KeyError` (the empty
`additional_df` has no columns) and the `except` handler returns the
error dict with `target_price` `None` and an empty list; on a well-formed
apartment table this merge is the only expression of the guarded body
that can raise, so the model is a total function with an explicit error
branch. -/
def find_similar_price_districts (target : Name)
    (ranking_df : List (Name × ℚ)) (apt_price_df : List AptRecord)
    (tolerance_pct : ℚ) (max_results : Nat) : CompResult :=
  match ranking_df.filter (fun r => r.1 == target) with
  | [] =>
    { target_district := target, target_price := none,
      similar_districts := [], summary := .notFound target,
      has_error_key := true }
  | trow :: _ =>
    if (windowRows ranking_df target trow.2 tolerance_pct).isEmpty then
      { target_district := target, target_price := some trow.2,
        similar_districts := [],
        summary := .noSimilar target trow.2 tolerance_pct,
        has_error_key := false }
    else
      if additional_nonempty apt_price_df
          (target :: (top_rows ranking_df target trow.2 tolerance_pct
            max_results).map (fun r => r.1)) then
        { target_district := target, target_price := some trow.2,
          similar_districts :=
            (top_rows ranking_df target trow.2 tolerance_pct max_results).map
              (fun r => r.1),
          summary := .found target trow.2
            (top_rows ranking_df target trow.2 tolerance_pct max_results).length
            (avgOf ((top_rows ranking_df target trow.2 tolerance_pct
              max_results).map (fun r => r.2.2)))
            tolerance_pct,
          has_error_key := false }
      else
        { target_district := target, target_price := none,
          similar_districts := [], summary := .analysisError,
          has_error_key := true }

/-- C5: `find_similar_price_districts` is total (never raises: the
source catches every exception of the body), and on both asserted failure
paths — target absent from the ranking, or no other district in the
tolerance window — it returns, for every apartment table, a result whose
similar-district list is empty and whose summary is the corresponding
descriptive message; both paths precede any use of `apt_price_df`. -/
theorem find_similar_graceful (target : Name) (rdf : List (Name × ℚ))
    (apt : List AptRecord) (tol : ℚ) (maxr : Nat) :
    (rdf.filter (fun r => r.1 == target) = [] →
      find_similar_price_districts target rdf apt tol maxr
        = { target_district := target, target_price := none,
            similar_districts := [], summary := .notFound target,
            has_error_key := true }) ∧
    (∀ trow rest, rdf.filter (fun r => r.1 == target) = trow :: rest →
      windowRows rdf target trow.2 tol = [] →
      find_similar_price_districts target rdf apt tol maxr
        = { target_district := target, target_price := some trow.2,
            similar_districts := [],
            summary := .noSimilar target trow.2 tol,
            has_error_key := false }) := by
  constructor
  · intro h
    unfold find_similar_price_districts
    rw [h]
  · intro trow rest h1 h2
    unfold find_similar_price_districts
    simp only [h1, h2, List.isEmpty_nil, if_true]

theorem mem_similar_rows {rdf : List (Name × ℚ)} {target : Name}
    {pmin pmax : ℚ} {r : Name × ℚ} :
    r ∈ similar_rows rdf target pmin pmax ↔
      r ∈ rdf ∧ pmin ≤ r.2 ∧ r.2 ≤ pmax ∧ r.1 ≠ target := by
  unfold similar_rows
  rw [List.mem_filter]
  simp only [Bool.and_eq_true, decide_eq_true_eq, bne_iff_ne]
  tauto

theorem sortBySimilarityDesc_perm (l : List (Name × ℚ × ℚ)) :
    (sortBySimilarityDesc l).Perm l :=
  (List.reverse_perm _).trans (List.perm_insertionSort _ _)

theorem sortBySimilarityDesc_sorted (l : List (Name × ℚ × ℚ)) :
    (sortBySimilarityDesc l).Pairwise (fun a b => b.2.2 ≤ a.2.2) := by
  unfold sortBySimilarityDesc
  exact List.pairwise_reverse.mpr (List.sorted_insertionSort simLe l)

/-- C4 amended: with the target present (its first matching row carrying
price `p > 0`), tolerance 15, and some involved district (the target or a
selected one) carrying apartment rows — so that the additional-info merge
on the found path succeeds instead of raising `KeyError` into the
`except` handler — the function reports `p` as the target price; every
returned district is another district of the table whose price lies in
the inclusive window `[p·0.85, p·1.15]`; the returned list is a
descending-similarity ordering (similarity `100 − |percent difference|`)
of exactly the window rows, truncated to `max_results`; and at most
`max_results` names are returned.  (`p > 0` keeps the model's total
rational division aligned with Python float division.) -/
theorem find_similar_window (rdf : List (Name × ℚ)) (target : Name)
    (apt : List AptRecord) (maxr : Nat) (trow : Name × ℚ)
    (rest : List (Name × ℚ))
    (hfil : rdf.filter (fun r => r.1 == target) = trow :: rest)
    (_hpos : 0 < trow.2)
    (hadd : additional_nonempty apt
      (target :: (top_rows rdf target trow.2 15 maxr).map (fun r => r.1))
        = true) :
    (find_similar_price_districts target rdf apt 15 maxr).target_price
        = some trow.2 ∧
    (∀ d ∈ (find_similar_price_districts target rdf apt 15 maxr).similar_districts,
      ∃ r ∈ rdf, r.1 = d ∧ d ≠ target ∧
        trow.2 * (85 / 100) ≤ r.2 ∧ r.2 ≤ trow.2 * (115 / 100)) ∧
    (∃ ranked : List (Name × ℚ),
      ranked.Perm ((similar_rows rdf target (trow.2 * (85 / 100))
          (trow.2 * (115 / 100))).map
        (fun r => (r.1, 100 - |((r.2 - trow.2) / trow.2) * 100|))) ∧
      ranked.Pairwise (fun a b => b.2 ≤ a.2) ∧
      (find_similar_price_districts target rdf apt 15 maxr).similar_districts
        = (ranked.take maxr).map Prod.fst) ∧
    (find_similar_price_districts target rdf apt 15 maxr).similar_districts.length
        ≤ maxr := by
  have hlo : price_window_lo trow.2 15 = trow.2 * (85 / 100) := by
    unfold price_window_lo; norm_num
  have hhi : price_window_hi trow.2 15 = trow.2 * (115 / 100) := by
    unfold price_window_hi; norm_num
  have hw : windowRows rdf target trow.2 15
      = similar_rows rdf target (trow.2 * (85 / 100)) (trow.2 * (115 / 100)) := by
    unfold windowRows
    rw [hlo, hhi]
  by_cases hemp : (windowRows rdf target trow.2 15).isEmpty = true
  · have hres : find_similar_price_districts target rdf apt 15 maxr
        = { target_district := target, target_price := some trow.2,
            similar_districts := [],
            summary := .noSimilar target trow.2 15,
            has_error_key := false } := by
      unfold find_similar_price_districts
      simp only [hfil]
      rw [if_pos hemp]
    have hwin : windowRows rdf target trow.2 15 = [] :=
      List.isEmpty_iff.mp hemp
    refine ⟨?_, ?_, ?_, ?_⟩
    · rw [hres]
    · rw [hres]
      intro d hd
      simp at hd
    · rw [← hw]
      refine ⟨[], ?_, List.Pairwise.nil, by rw [hres]; simp⟩
      rw [hwin]
      exact List.Perm.nil
    · rw [hres]
      simp
  · have hres : find_similar_price_districts target rdf apt 15 maxr
        = { target_district := target, target_price := some trow.2,
            similar_districts :=
              (top_rows rdf target trow.2 15 maxr).map (fun r => r.1),
            summary := .found target trow.2
              (top_rows rdf target trow.2 15 maxr).length
              (avgOf ((top_rows rdf target trow.2 15 maxr).map (fun r => r.2.2)))
              15,
            has_error_key := false } := by
      unfold find_similar_price_districts
      simp only [hfil]
      rw [if_neg hemp, if_pos hadd]
    have hmemtop : ∀ tr ∈ top_rows rdf target trow.2 15 maxr,
        ∃ r ∈ windowRows rdf target trow.2 15,
          tr = (r.1, r.2, 100 - |((r.2 - trow.2) / trow.2) * 100|) := by
      intro tr htr
      have h1 : tr ∈ sortBySimilarityDesc
          (scoreRows (windowRows rdf target trow.2 15) trow.2) :=
        List.take_subset _ _ htr
      have h2 : tr ∈ scoreRows (windowRows rdf target trow.2 15) trow.2 :=
        (sortBySimilarityDesc_perm _).subset h1
      rcases List.mem_map.mp h2 with ⟨r, hr, hreq⟩
      exact ⟨r, hr, hreq.symm⟩
    refine ⟨by rw [hres], ?_, ?_, ?_⟩
    · rw [hres]
      intro d hd
      rcases List.mem_map.mp hd with ⟨tr, htr, rfl⟩
      rcases hmemtop tr htr with ⟨r, hr, rfl⟩
      rw [hw] at hr
      rcases mem_similar_rows.mp hr with ⟨hmem, hb1, hb2, hne⟩
      exact ⟨r, hmem, rfl, hne, hb1, hb2⟩
    · rw [← hw]
      refine ⟨(sortBySimilarityDesc
        (scoreRows (windowRows rdf target trow.2 15) trow.2)).map
          (fun t => (t.1, t.2.2)), ?_, ?_, ?_⟩
      · have hp : ((sortBySimilarityDesc
            (scoreRows (windowRows rdf target trow.2 15) trow.2)).map
              (fun t : Name × ℚ × ℚ => (t.1, t.2.2))).Perm
            ((scoreRows (windowRows rdf target trow.2 15) trow.2).map
              (fun t : Name × ℚ × ℚ => (t.1, t.2.2))) :=
          (sortBySimilarityDesc_perm _).map _
        have heq : (scoreRows (windowRows rdf target trow.2 15) trow.2).map
            (fun t : Name × ℚ × ℚ => (t.1, t.2.2))
            = (windowRows rdf target trow.2 15).map
              (fun r => (r.1, 100 - |((r.2 - trow.2) / trow.2) * 100|)) := by
          unfold scoreRows
          rw [List.map_map]
          rfl
        rw [heq] at hp
        exact hp
      · rw [List.pairwise_map]
        exact sortBySimilarityDesc_sorted _
      · rw [hres, ← List.map_take, List.map_map]
        rfl
    · rw [hres]
      simp only [List.length_map]
      unfold top_rows
      exact List.length_take_le _ _

/-- A concrete ranking: target "t" (code 116) at 10000, with districts at
exactly the window bounds 8500 and 11500, one above, and one below. -/
def exRanking : List (Name × ℚ) :=
  [([116], 10000), ([97], 8500), ([98], 11500), ([99], 12000), ([100], 7000)]

/-- A concrete ranking in which the target exists but no other district
falls in the ±15% window. -/
def exRanking2 : List (Name × ℚ) := [([116], 10000), ([97], 100)]

/-- An apartment detail table containing rows for the target district
"t" (code 116). -/
def exApt : List AptRecord :=
  [{ gugun := [116], build_year := 2000, apt_name := [65],
     household_count := 100 }]

/-- Witness for C4 amended at the concrete ranking and apartment
table. -/
theorem find_similar_window_witness :
    exRanking.filter (fun r => r.1 == [116]) = [([116], (10000 : ℚ))] ∧
    (0 : ℚ) < 10000 ∧
    additional_nonempty exApt
      ([116] :: (top_rows exRanking [116] ((([116], (10000 : ℚ)) :
        Name × ℚ)).2 15 6).map (fun r => r.1)) = true ∧
    (find_similar_price_districts [116] exRanking exApt 15
      6).similar_districts.length ≤ 6 := by
  have h1 : exRanking.filter (fun r => r.1 == [116]) = [([116], (10000 : ℚ))] := by
    norm_num [exRanking, List.filter_cons, List.filter_nil, beq_iff_eq]
  have hadd : additional_nonempty exApt
      ([116] :: (top_rows exRanking [116] ((([116], (10000 : ℚ)) :
        Name × ℚ)).2 15 6).map (fun r => r.1)) = true := by decide
  refine ⟨h1, by norm_num, hadd, ?_⟩
  exact (find_similar_window exRanking [116] exApt 6 ([116], (10000 : ℚ)) [] h1
    (by norm_num) hadd).2.2.2

/-- The loop condition of the found path: the error result appears
exactly when the ranking filter finds the target, the window is
non-empty, and no involved district has apartment rows. -/
theorem find_similar_error (target : Name) (rdf : List (Name × ℚ))
    (apt : List AptRecord) (tol : ℚ) (maxr : Nat) (trow : Name × ℚ)
    (rest : List (Name × ℚ))
    (h1 : rdf.filter (fun r => r.1 == target) = trow :: rest)
    (h2 : (windowRows rdf target trow.2 tol).isEmpty = false)
    (h3 : additional_nonempty apt
      (target :: (top_rows rdf target trow.2 tol maxr).map (fun r => r.1))
        = false) :
    find_similar_price_districts target rdf apt tol maxr
      = { target_district := target, target_price := none,
          similar_districts := [], summary := .analysisError,
          has_error_key := true } := by
  unfold find_similar_price_districts
  simp only [h1]
  rw [if_neg (by simp [h2]), if_neg (by simp [h3])]

/-- C4 counterexample: with the target present at price 10000 and the
window rows non-empty (districts at 8500 and 11500 qualify), an
apartment table with no rows for any involved district makes
`additional_info` empty, so the `merge(on="gugun")` raises `KeyError`
and the `except` handler returns the error dict — `target_price` `None`
and an empty similar-district list — instead of the claimed window
selection. -/
theorem find_similar_missing_apt_counterexample :
    find_similar_price_districts [116] exRanking [] 15 6
        = { target_district := [116], target_price := none,
            similar_districts := [], summary := .analysisError,
            has_error_key := true } ∧
    windowRows exRanking [116] 10000 15 ≠ [] := by
  have h1 : exRanking.filter (fun r => r.1 == [116]) = [([116], (10000 : ℚ))] := by
    norm_num [exRanking, List.filter_cons, List.filter_nil, beq_iff_eq]
  have h2 : (windowRows exRanking [116] (10000 : ℚ) 15).isEmpty = false := by
    norm_num [windowRows, similar_rows, price_window_lo, price_window_hi,
      exRanking, List.filter_cons, List.filter_nil, Bool.and_eq_true,
      decide_eq_true_eq, bne_iff_ne]
  constructor
  · exact find_similar_error [116] exRanking [] 15 6 ([116], (10000 : ℚ)) []
      h1 h2 (additional_nonempty_nil _)
  · intro h
    rw [h] at h2
    exact absurd h2 (by simp)

/-- Witness for C5: the two failure paths evaluated on concrete
rankings (the apartment table is irrelevant on both). -/
theorem find_similar_graceful_witness :
    find_similar_price_districts [120] exRanking exApt 15 6
        = { target_district := [120], target_price := none,
            similar_districts := [], summary := .notFound [120],
            has_error_key := true } ∧
    find_similar_price_districts [116] exRanking2 exApt 15 6
        = { target_district := [116], target_price := some 10000,
            similar_districts := [],
            summary := .noSimilar [116] 10000 15,
            has_error_key := false } := by
  constructor
  · exact (find_similar_graceful [120] exRanking exApt 15 6).1
      (by norm_num [exRanking, List.filter_cons, List.filter_nil, beq_iff_eq])
  · exact (find_similar_graceful [116] exRanking2 exApt 15 6).2
      ([116], (10000 : ℚ)) []
      (by norm_num [exRanking2, List.filter_cons, List.filter_nil, beq_iff_eq])
      (by norm_num [windowRows, similar_rows, price_window_lo, price_window_hi,
        exRanking2, List.filter_cons, List.filter_nil, Bool.and_eq_true,
        decide_eq_true_eq, bne_iff_ne])

/-! ## Map cache keys (`core/map_manager.py`) -/

/-- `'_'.join(names)`: the names joined with the underscore (code 95). -/
def joinSep : List Name → Name
  | [] => []
  | [a] => a
  | a :: b :: t => a ++ 95 :: joinSep (b :: t)

/-- `sorted(adjacent_districts)`: Python sorts strings
lexicographically. -/
def sortNames (l : List Name) : List Name := List.insertionSort (· ≤ ·) l

/-- `adjacent_cache_suffix`: empty for an empty comparison list (which
the code also replaces by `None`), otherwise
`"_adj_" + '_'.join(sorted(districts))`; `[95, 97, 100, 106, 95]` is
`"_adj_"`. -/
def adj_cache_suffix (districts : List Name) : Name :=
  if districts.isEmpty then []
  else [95, 97, 100, 106, 95] ++ joinSep (sortNames districts)

/-- The cache keys `f"{...PREFIX}{selected_quintile}__{suffix}"` and
`f"{...PREFIX}{selected_district}__{suffix}"` share this shape: a
mode-specific head, the base selection field, `"__"` (`[95, 95]`), and
the comparison-set suffix. -/
def map_cache_key (keyHead base : Name) (districts : List Name) : Name :=
  keyHead ++ (base ++ ([95, 95] ++ adj_cache_suffix districts))

/-- C9 counterexample: with the same head and base selection, the
distinct comparison sets `{"a_b"}` and `{"a", "b"}` produce the same
cache key — the underscore join is not injective on names that contain
the separator — so distinct comparison sets do not always map to
distinct cache entries. -/
theorem map_cache_key_counterexample :
    map_cache_key [81] [51] [[97, 95, 98]] = map_cache_key [81] [51] [[97], [98]] ∧
    ¬ ([[97, 95, 98]] : List Name).Perm [[97], [98]] := by
  constructor
  · decide
  · decide

theorem split_nofree (a r : List Nat) (ha : (95 : Nat) ∉ a)
    (hr : r = [] ∨ ∃ r', r = 95 :: r') :
    (a ++ r).takeWhile (fun c => !(c == 95)) = a ∧
    (a ++ r).dropWhile (fun c => !(c == 95)) = r := by
  induction a with
  | nil =>
    rcases hr with rfl | ⟨r', rfl⟩
    · simp
    · simp [List.takeWhile_cons, List.dropWhile_cons]
  | cons c a ih =>
    have hc : (c == 95) = false := by
      have hne : c ≠ 95 := fun h => ha (h ▸ List.mem_cons_self c a)
      simp [hne]
    have ha' : (95 : Nat) ∉ a := fun h => ha (List.mem_cons_of_mem c h)
    rcases ih ha' with ⟨h1, h2⟩
    constructor
    · simp [List.takeWhile_cons, hc, h1]
    · simp [List.dropWhile_cons, hc, h2]

/-- The tail of `joinSep` after the head name: nothing for a singleton,
a separator followed by the joined tail otherwise. -/
theorem joinSep_cons (a : Name) (t : List Name) :
    (t = [] ∧ joinSep (a :: t) = a ++ []) ∨
    (t ≠ [] ∧ joinSep (a :: t) = a ++ (95 :: joinSep t)) := by
  cases t with
  | nil => exact Or.inl ⟨rfl, by simp [joinSep]⟩
  | cons b t' => exact Or.inr ⟨by simp, rfl⟩

theorem joinSep_inj : ∀ (l1 l2 : List Name),
    (∀ n ∈ l1, (95 : Nat) ∉ n) → (∀ n ∈ l2, (95 : Nat) ∉ n) →
    l1 ≠ [] → l2 ≠ [] → joinSep l1 = joinSep l2 → l1 = l2 := by
  intro l1
  induction l1 with
  | nil => intro l2 _ _ h1 _ _; exact absurd rfl h1
  | cons a1 t1 ih =>
    intro l2 hf1 hf2 _ h2 heq
    cases l2 with
    | nil => exact absurd rfl h2
    | cons a2 t2 =>
      have ha1 : (95 : Nat) ∉ a1 := hf1 a1 (List.mem_cons_self _ _)
      have ha2 : (95 : Nat) ∉ a2 := hf2 a2 (List.mem_cons_self _ _)
      rcases joinSep_cons a1 t1 with ⟨ht1, hj1⟩ | ⟨ht1, hj1⟩ <;>
        rcases joinSep_cons a2 t2 with ⟨ht2, hj2⟩ | ⟨ht2, hj2⟩
      · subst ht1; subst ht2
        rw [hj1, hj2] at heq
        simp at heq
        rw [heq]
      · subst ht1
        rw [hj1, hj2] at heq
        rcases split_nofree a1 [] ha1 (Or.inl rfl) with ⟨_, hd1⟩
        rcases split_nofree a2 (95 :: joinSep t2) ha2 (Or.inr ⟨_, rfl⟩) with ⟨_, hd2⟩
        rw [heq] at hd1
        rw [hd1] at hd2
        exact absurd hd2.symm (by simp)
      · subst ht2
        rw [hj1, hj2] at heq
        rcases split_nofree a1 (95 :: joinSep t1) ha1 (Or.inr ⟨_, rfl⟩) with ⟨_, hd1⟩
        rcases split_nofree a2 [] ha2 (Or.inl rfl) with ⟨_, hd2⟩
        rw [heq] at hd1
        rw [hd1] at hd2
        exact absurd hd2 (by simp)
      · rw [hj1, hj2] at heq
        rcases split_nofree a1 (95 :: joinSep t1) ha1 (Or.inr ⟨_, rfl⟩) with ⟨hh1, hd1⟩
        rcases split_nofree a2 (95 :: joinSep t2) ha2 (Or.inr ⟨_, rfl⟩) with ⟨hh2, hd2⟩
        rw [heq] at hh1 hd1
        rw [hh2] at hh1
        rw [hd2] at hd1
        have htt : joinSep t1 = joinSep t2 := by
          injection hd1.symm
        have hft1 : ∀ n ∈ t1, (95 : Nat) ∉ n :=
          fun n hn => hf1 n (List.mem_cons_of_mem _ hn)
        have hft2 : ∀ n ∈ t2, (95 : Nat) ∉ n :=
          fun n hn => hf2 n (List.mem_cons_of_mem _ hn)
        rw [hh1, ih t2 hft1 hft2 ht1 ht2 htt]

/-- C9 amended: with a fixed head and base selection, two non-empty
comparison sets whose district names contain no underscore (the join
separator) and that are not permutations of each other always yield
distinct cache keys; the injectivity fails only for names containing the
separator, as the counterexample shows. -/
theorem map_cache_key_distinct (keyHead base : Name) (ds1 ds2 : List Name)
    (h1 : ds1 ≠ []) (h2 : ds2 ≠ [])
    (hf1 : ∀ n ∈ ds1, (95 : Nat) ∉ n) (hf2 : ∀ n ∈ ds2, (95 : Nat) ∉ n)
    (hne : ¬ ds1.Perm ds2) :
    map_cache_key keyHead base ds1 ≠ map_cache_key keyHead base ds2 := by
  intro heq
  apply hne
  unfold map_cache_key at heq
  have heq2 := List.append_cancel_left heq
  have heq3 := List.append_cancel_left heq2
  have heq4 := List.append_cancel_left heq3
  unfold adj_cache_suffix at heq4
  have e1 : ¬ (ds1.isEmpty = true) := by rw [List.isEmpty_iff]; exact h1
  have e2 : ¬ (ds2.isEmpty = true) := by rw [List.isEmpty_iff]; exact h2
  rw [if_neg e1, if_neg e2] at heq4
  have heq5 := List.append_cancel_left heq4
  have hp1 : (sortNames ds1).Perm ds1 := List.perm_insertionSort _ _
  have hp2 : (sortNames ds2).Perm ds2 := List.perm_insertionSort _ _
  have hs1 : sortNames ds1 ≠ [] := by
    intro h
    apply h1
    have := hp1.length_eq
    rw [h] at this
    exact List.eq_nil_of_length_eq_zero this.symm
  have hs2 : sortNames ds2 ≠ [] := by
    intro h
    apply h2
    have := hp2.length_eq
    rw [h] at this
    exact List.eq_nil_of_length_eq_zero this.symm
  have hsf1 : ∀ n ∈ sortNames ds1, (95 : Nat) ∉ n :=
    fun n hn => hf1 n (hp1.subset hn)
  have hsf2 : ∀ n ∈ sortNames ds2, (95 : Nat) ∉ n :=
    fun n hn => hf2 n (hp2.subset hn)
  have hss := joinSep_inj (sortNames ds1) (sortNames ds2) hsf1 hsf2 hs1 hs2 heq5
  exact hp1.symm.trans (hss ▸ hp2)

/-- Witness for C9 amended: the underscore-free singleton sets `{"a"}`
and `{"b"}` receive distinct keys. -/
theorem map_cache_key_distinct_witness :
    ([[97]] : List Name) ≠ [] ∧ (∀ n ∈ ([[97]] : List Name), (95 : Nat) ∉ n) ∧
    map_cache_key [81] [51] [[97]] ≠ map_cache_key [81] [51] [[98]] :=
  ⟨by decide, by decide,
   map_cache_key_distinct [81] [51] [[97]] [[98]] (by decide) (by decide)
     (by decide) (by decide) (by decide)⟩

end MarbleSeoul
